import Mathlib

/-!
# Verification of the energy-trade record service

A shallow embedding of the trade data model, validation rules and query
semantics of the FastAPI energy-trading service (files app/schemas.py,
app/crud.py, app/models.py, app/main.py), together with theorems settling
the behavioural claims about it.

Modelling conventions:
* Python floats (price, quantity) are modelled as rationals; the properties
  at stake are exact order comparisons.
* Datetimes (timestamp) are modelled as naturals.
* Python strings are modelled as lists of characters (PyStr); Python
  str.lower, str.isalnum and len are modelled character-wise for the ASCII
  range by Char.toLower and Char.isAlphanum.
* The SQL query pipeline of crud.get_trades
  (filter, order_by desc timestamp, offset, limit) is modelled over the
  table contents held as a list in insertion (rowid / id-ascending) order:
  each filter is a list filter, ordering by timestamp descending is a
  stable sort (ties keep the underlying row order), offset is drop and
  limit is take.
-/

namespace TradeService

/-- A Python string, as a list of its characters. -/
abbrev PyStr := List Char

/-- Python str.lower, character-wise (ASCII range). -/
def pyLower (s : PyStr) : PyStr := s.map Char.toLower

/-- Python str.isalnum: nonempty and every character alphanumeric
(ASCII range). -/
def pyIsAlnum (s : PyStr) : Bool :=
  !s.isEmpty && s.all Char.isAlphanum

/-- Python `c in s` for a single character c. -/
def containsChar (s : PyStr) (c : Char) : Bool :=
  s.any (fun ch => ch == c)

/-- A stored trade row (app/models.py, class Trade). -/
structure Trade where
  id : Nat
  commodity : PyStr
  price : ℚ
  quantity : ℚ
  side : PyStr
  trader_id : PyStr
  timestamp : Nat
  deriving Repr, DecidableEq

/-- A candidate trade submission before validation
(the payload of schemas.TradeCreate: all fields of TradeBase). -/
structure TradeCandidate where
  commodity : PyStr
  price : ℚ
  quantity : ℚ
  side : PyStr
  trader_id : PyStr
  deriving Repr, DecidableEq

/-- The fixed allowed commodity set of TradeBase.validate_commodity. -/
def allowed_commodities : List PyStr :=
  ["electricity".toList, "oil".toList, "gas".toList, "coal".toList,
   "natural_gas".toList, "renewable".toList]

/-- The check of TradeBase.validate_trader_id (schemas.py): the validator
raises exactly when
`not v.isalnum() and '_' not in v and '-' not in v`;
hence the value passes when it is alphanumeric, or contains an underscore,
or contains a hyphen. -/
def trader_id_passes (v : PyStr) : Bool :=
  pyIsAlnum v || containsChar v '_' || containsChar v '-'

/-- The check of TradeBase.validate_commodity (schemas.py): the lowercased
value must be in the allowed set. -/
def commodity_passes (v : PyStr) : Bool :=
  allowed_commodities.contains (pyLower v)

/-- The Field constraints of TradeBase (schemas.py):
commodity min_length 1 / max_length 50, price gt 0, quantity gt 0,
side a Literal of "buy" or "sell", trader_id min_length 1 /
max_length 100. -/
def field_constraints_pass (c : TradeCandidate) : Bool :=
  (1 ≤ c.commodity.length && c.commodity.length ≤ 50) &&
  (0 < c.price) &&
  (0 < c.quantity) &&
  (c.side == "buy".toList || c.side == "sell".toList) &&
  (1 ≤ c.trader_id.length && c.trader_id.length ≤ 100)

/-- Pydantic validation of a TradeCreate payload: the Field constraints
together with the two attached validators; on success validate_commodity
returns the lowercased commodity and validate_trader_id returns the value
unchanged. none models a pydantic ValidationError. -/
def validate_and_normalize (c : TradeCandidate) : Option TradeCandidate :=
  if field_constraints_pass c &&
     commodity_passes c.commodity &&
     trader_id_passes c.trader_id then
    some { c with commodity := pyLower c.commodity }
  else
    none

/-- The trades table: rows in insertion order (rowid order), plus the next
primary key the engine will assign. -/
structure StoreState where
  trades : List Trade
  next_id : Nat
  deriving Repr, DecidableEq

/-- The empty store. -/
def emptyStore : StoreState := ⟨[], 1⟩

/-- The POST /trades/ endpoint (main.py create_trade): pydantic validation
of the body followed by crud.create_trade, which inserts a new row with
engine-assigned id and timestamp. On a ValidationError nothing reaches the
database and the state is unchanged. -/
def create_trade (st : StoreState) (now : Nat) (c : TradeCandidate) :
    StoreState × Option Trade :=
  match validate_and_normalize c with
  | none => (st, none)
  | some n =>
    let t : Trade :=
      { id := st.next_id, commodity := n.commodity, price := n.price,
        quantity := n.quantity, side := n.side, trader_id := n.trader_id,
        timestamp := now }
    ({ trades := st.trades ++ [t], next_id := st.next_id + 1 }, some t)

/-- The commodity filter branch of crud.get_trades:
`if commodity: query = query.filter(Trade.commodity == commodity.lower())`.
A Python falsy value (None or the empty string) leaves the query
unchanged. -/
def filterCommodity (commodity : Option PyStr) (l : List Trade) :
    List Trade :=
  match commodity with
  | none => l
  | some s => if s.isEmpty then l else
      l.filter (fun t => t.commodity == pyLower s)

/-- The trader_id filter branch of crud.get_trades:
`if trader_id: query = query.filter(Trade.trader_id == trader_id)`
(exact, case-sensitive comparison). -/
def filterTrader (tid : Option PyStr) (l : List Trade) : List Trade :=
  match tid with
  | none => l
  | some s => if s.isEmpty then l else
      l.filter (fun t => t.trader_id == s)

/-- The side filter branch of crud.get_trades:
`if side: query = query.filter(Trade.side == side.lower())`. -/
def filterSide (side : Option PyStr) (l : List Trade) : List Trade :=
  match side with
  | none => l
  | some s => if s.isEmpty then l else
      l.filter (fun t => t.side == pyLower s)

/-- All three optional filters of crud.get_trades / crud.get_trades_count,
applied in source order. -/
def applyFilters (commodity tid side : Option PyStr) (l : List Trade) :
    List Trade :=
  filterSide side (filterTrader tid (filterCommodity commodity l))

/-- Insert a trade into a list already sorted by timestamp descending,
keeping it before the first row whose timestamp is not larger: rows with
equal timestamps keep their underlying (rowid) order. -/
def insertTs (t : Trade) : List Trade → List Trade
  | [] => [t]
  | h :: rest =>
    if h.timestamp ≤ t.timestamp then t :: h :: rest
    else h :: insertTs t rest

/-- `order_by(desc(Trade.timestamp))`: a stable sort of the rows by
timestamp descending (the query has no secondary sort key, so rows with
equal timestamps come out in the underlying row order). -/
def sortByTsDesc : List Trade → List Trade
  | [] => []
  | t :: l => insertTs t (sortByTsDesc l)

/-- crud.get_trades: filter, order by timestamp descending, then
`.offset(offset).limit(limit).all()`. -/
def get_trades (st : StoreState) (limit offset : Nat)
    (commodity tid side : Option PyStr) : List Trade :=
  (((sortByTsDesc (applyFilters commodity tid side st.trades)).drop
    offset).take limit)

/-- crud.get_trade_by_id: `query.filter(Trade.id == trade_id).first()`. -/
def get_trade_by_id (st : StoreState) (trade_id : Nat) : Option Trade :=
  st.trades.find? (fun t => t.id == trade_id)

/-- crud.get_trades_count: the same three filter branches as
crud.get_trades, then `.count()`. -/
def get_trades_count (st : StoreState)
    (commodity tid side : Option PyStr) : Nat :=
  (applyFilters commodity tid side st.trades).length

/-- The GET /trades/ endpoint (main.py get_trades): the page of trades from
crud.get_trades together with the total from crud.get_trades_count, both
over the same filters. -/
def get_trades_endpoint (st : StoreState) (limit offset : Nat)
    (commodity tid side : Option PyStr) : List Trade × Nat :=
  (get_trades st limit offset commodity tid side,
   get_trades_count st commodity tid side)

/-- The conjunction of the three filter predicates on a single row. -/
def matchesFilters (commodity tid side : Option PyStr) (t : Trade) :
    Bool :=
  (match commodity with
   | none => true
   | some s => if s.isEmpty then true else t.commodity == pyLower s) &&
  (match tid with
   | none => true
   | some s => if s.isEmpty then true else t.trader_id == s) &&
  (match side with
   | none => true
   | some s => if s.isEmpty then true else t.side == pyLower s)

/-- Store well-formedness: rows are in strictly increasing id order, ids
are below next_id, and every row went through validation, so its commodity
is one of the canonical lowercase allowed values and its side is exactly
"buy" or "sell". -/
def StoreWF (st : StoreState) : Prop :=
  st.trades.Pairwise (fun a b => a.id < b.id) ∧
  ∀ t ∈ st.trades, t.id < st.next_id ∧
    t.commodity ∈ allowed_commodities ∧
    (t.side = "buy".toList ∨ t.side = "sell".toList)

/-- Case-insensitive string equality (both sides lowercased). -/
def eqCaseInsensitive (a b : PyStr) : Bool :=
  pyLower a == pyLower b

/-- Output ordering stated by the spec claim: timestamp descending with
ties in id-descending order. -/
def tsDescIdDesc (a b : Trade) : Prop :=
  b.timestamp < a.timestamp ∨
    (a.timestamp = b.timestamp ∧ b.id < a.id)

/-- Output ordering actually produced: timestamp descending with ties in
insertion (id-ascending) order. -/
def tsDescIdAsc (a b : Trade) : Prop :=
  b.timestamp < a.timestamp ∨
    (a.timestamp = b.timestamp ∧ a.id < b.id)

/-- The character set the spec allows in trader_id. -/
def specTraderChar (c : Char) : Bool :=
  c.isAlphanum || c == '_' || c == '-'

/-! ## Supporting lemmas about the stable sort -/

theorem perm_insertTs (t : Trade) (l : List Trade) :
    List.Perm (insertTs t l) (t :: l) := by
  induction l with
  | nil => simp [insertTs]
  | cons h rest ih =>
    simp only [insertTs]
    split
    · exact List.Perm.refl _
    · exact (List.Perm.cons h ih).trans (List.Perm.swap t h rest)

theorem perm_sortByTsDesc (l : List Trade) :
    List.Perm (sortByTsDesc l) l := by
  induction l with
  | nil => exact List.Perm.refl _
  | cons t l ih =>
    exact (perm_insertTs t (sortByTsDesc l)).trans (List.Perm.cons t ih)

theorem mem_insertTs {x t : Trade} {l : List Trade} :
    x ∈ insertTs t l ↔ x = t ∨ x ∈ l :=
  ((perm_insertTs t l).mem_iff).trans (by simp)

theorem mem_sortByTsDesc {x : Trade} {l : List Trade} :
    x ∈ sortByTsDesc l ↔ x ∈ l :=
  (perm_sortByTsDesc l).mem_iff

theorem pairwise_insertTs {t : Trade} {l : List Trade}
    (hl : l.Pairwise tsDescIdAsc)
    (hid : ∀ x ∈ l, x.timestamp ≤ t.timestamp → t.id < x.id) :
    (insertTs t l).Pairwise tsDescIdAsc := by
  induction l with
  | nil => simp [insertTs, List.pairwise_cons]
  | cons h rest ih =>
    rw [List.pairwise_cons] at hl
    simp only [insertTs]
    split
    · rename_i hts
      refine List.pairwise_cons.mpr ⟨?_, List.pairwise_cons.mpr hl⟩
      intro x hx
      have hxmem : x = h ∨ x ∈ rest := List.mem_cons.mp hx
      have hxts : x.timestamp ≤ t.timestamp := by
        rcases hxmem with rfl | hx'
        · exact hts
        · rcases hl.1 x hx' with hlt | ⟨heq, _⟩
          · exact le_trans (le_of_lt hlt) hts
          · exact heq ▸ hts
      rcases lt_or_eq_of_le hxts with hlt | heq
      · exact Or.inl hlt
      · exact Or.inr ⟨heq.symm, hid x hx hxts⟩
    · rename_i hts
      push_neg at hts
      refine List.pairwise_cons.mpr ⟨?_, ih hl.2 ?_⟩
      · intro x hx
        rcases mem_insertTs.mp hx with rfl | hx'
        · exact Or.inl hts
        · exact hl.1 x hx'
      · intro x hx hxts
        exact hid x (List.mem_cons_of_mem _ hx) hxts

theorem pairwise_sortByTsDesc {l : List Trade}
    (h : l.Pairwise (fun a b => a.id < b.id)) :
    (sortByTsDesc l).Pairwise tsDescIdAsc := by
  induction l with
  | nil => simp [sortByTsDesc]
  | cons t l ih =>
    rw [List.pairwise_cons] at h
    refine pairwise_insertTs (ih h.2) ?_
    intro x hx _
    exact h.1 x ((perm_sortByTsDesc l).mem_iff.mp hx)

/-! ## Supporting lemmas about the filters -/

theorem filterCommodity_eq_filter (co : Option PyStr) (l : List Trade) :
    filterCommodity co l = l.filter (fun t =>
      match co with
      | none => true
      | some s => if s.isEmpty then true else t.commodity == pyLower s) := by
  cases co with
  | none => simp [filterCommodity]
  | some s => by_cases h : s.isEmpty <;> simp [filterCommodity, h]

theorem filterTrader_eq_filter (tid : Option PyStr) (l : List Trade) :
    filterTrader tid l = l.filter (fun t =>
      match tid with
      | none => true
      | some s => if s.isEmpty then true else t.trader_id == s) := by
  cases tid with
  | none => simp [filterTrader]
  | some s => by_cases h : s.isEmpty <;> simp [filterTrader, h]

theorem filterSide_eq_filter (side : Option PyStr) (l : List Trade) :
    filterSide side l = l.filter (fun t =>
      match side with
      | none => true
      | some s => if s.isEmpty then true else t.side == pyLower s) := by
  cases side with
  | none => simp [filterSide]
  | some s => by_cases h : s.isEmpty <;> simp [filterSide, h]

theorem applyFilters_eq_filter (co tid si : Option PyStr) (l : List Trade) :
    applyFilters co tid si l = l.filter (matchesFilters co tid si) := by
  unfold applyFilters
  rw [filterCommodity_eq_filter, filterTrader_eq_filter,
      filterSide_eq_filter, List.filter_filter, List.filter_filter]
  apply List.filter_congr
  intro t _
  unfold matchesFilters
  cases hc : (match co with
    | none => true
    | some s => if s.isEmpty then true else t.commodity == pyLower s) <;>
  cases ht : (match tid with
    | none => true
    | some s => if s.isEmpty then true else t.trader_id == s) <;>
  cases hs : (match si with
    | none => true
    | some s => if s.isEmpty then true else t.side == pyLower s) <;>
  simp [hc, ht, hs]

theorem mem_applyFilters {co tid si : Option PyStr} {l : List Trade}
    {t : Trade} :
    t ∈ applyFilters co tid si l ↔
      t ∈ l ∧ matchesFilters co tid si t = true := by
  rw [applyFilters_eq_filter, List.mem_filter]

theorem applyFilters_sublist (co tid si : Option PyStr) (l : List Trade) :
    (applyFilters co tid si l).Sublist l := by
  rw [applyFilters_eq_filter]
  exact List.filter_sublist l

/-! ## Supporting lemma for pagination -/

theorem flatMap_range_take_drop {α : Type} (l : List α) (n m : Nat) :
    (List.range m).flatMap (fun k => (l.drop (k * n)).take n) =
      l.take (m * n) := by
  induction m with
  | zero => simp
  | succ m ih =>
    rw [List.range_succ, List.flatMap_append, ih]
    have : (m + 1) * n = m * n + n := Nat.succ_mul m n
    rw [this, List.take_add]
    simp

/-! ## Supporting lemmas about validation -/

theorem validate_isSome_iff (c : TradeCandidate) :
    (validate_and_normalize c).isSome = true ↔
      (field_constraints_pass c && commodity_passes c.commodity &&
        trader_id_passes c.trader_id) = true := by
  unfold validate_and_normalize
  split <;> simp_all

theorem validate_eq_some (c n : TradeCandidate)
    (h : validate_and_normalize c = some n) :
    n.commodity = pyLower c.commodity ∧ n.price = c.price ∧
      n.quantity = c.quantity ∧ n.side = c.side ∧
      n.trader_id = c.trader_id := by
  unfold validate_and_normalize at h
  split at h
  · cases h
    exact ⟨rfl, rfl, rfl, rfl, rfl⟩
  · cases h

theorem find_id_unique {l : List Trade}
    (hpw : l.Pairwise (fun a b => a.id < b.id)) {t : Trade} (ht : t ∈ l) :
    l.find? (fun x => x.id == t.id) = some t := by
  induction l with
  | nil => cases ht
  | cons h rest ih =>
    rw [List.pairwise_cons] at hpw
    rcases List.mem_cons.mp ht with rfl | ht'
    · exact List.find?_cons_of_pos rest (by simp)
    · have hne : ¬ ((fun x => x.id == t.id) h = true) := by
        simp [Nat.ne_of_lt (hpw.1 t ht')]
      rw [List.find?_cons_of_neg rest hne]
      exact ih hpw.2 ht'

theorem pyLower_allowed {s : PyStr} (h : s ∈ allowed_commodities) :
    pyLower s = s := by
  simp only [allowed_commodities, List.mem_cons, List.not_mem_nil,
    or_false] at h
  rcases h with rfl | rfl | rfl | rfl | rfl | rfl <;> decide

theorem pyLower_side {s : PyStr}
    (h : s = "buy".toList ∨ s = "sell".toList) : pyLower s = s := by
  rcases h with rfl | rfl <;> decide

/-! ## Decidability instances and concrete fixtures -/

instance (a b : Trade) : Decidable (tsDescIdDesc a b) := by
  unfold tsDescIdDesc; infer_instance

instance (a b : Trade) : Decidable (tsDescIdAsc a b) := by
  unfold tsDescIdAsc; infer_instance

instance (st : StoreState) : Decidable (StoreWF st) := by
  unfold StoreWF; infer_instance

/-- A stored oil trade; together with tGas it forms a store with two rows
bearing the same timestamp. -/
def tOil : Trade :=
  ⟨1, "oil".toList, 1, 1, "buy".toList, "a1".toList, 5⟩

/-- A stored gas trade with the same timestamp as tOil and a larger id. -/
def tGas : Trade :=
  ⟨2, "gas".toList, 1, 1, "sell".toList, "b2".toList, 5⟩

/-- A concrete well-formed store with two rows of equal timestamp. -/
def stTwo : StoreState := ⟨[tOil, tGas], 3⟩

/-- A candidate that is fully valid. -/
def cGood : TradeCandidate :=
  ⟨"Electricity".toList, 1, 2, "buy".toList, "trader_001".toList⟩

/-- A candidate whose trader_id contains the forbidden character but also
an underscore. -/
def cBadTrader : TradeCandidate :=
  ⟨"oil".toList, 1, 1, "buy".toList, "ab!_".toList⟩

/-- A candidate with a negative price and all other fields valid. -/
def cNegPrice : TradeCandidate :=
  ⟨"oil".toList, -5, 1, "buy".toList, "t1".toList⟩

/-! ## Claim theorems -/

/-- Claim C1 (code bug): the validator of schemas.py accepts the candidate
cBadTrader although its trader_id "ab!_" has 1-100 characters and contains
the character '!', which is outside the set of alphanumerics, underscore
and hyphen; the claim (and the code's own error message) say validation
must fail for it. The buggy condition
`not v.isalnum() and '_' not in v and '-' not in v`
accepts any string containing an underscore or hyphen. -/
theorem C1_code_accepts_invalid_trader_id :
    (validate_and_normalize cBadTrader).isSome = true ∧
    cBadTrader.trader_id.all specTraderChar = false ∧
    1 ≤ cBadTrader.trader_id.length ∧
    cBadTrader.trader_id.length ≤ 100 := by
  decide

/-- Claim C2 (counterexample): on a store holding two trades with equal
timestamps, the unfiltered listing returns them in id-ascending order, so
the returned sequence is not ordered with the claimed id-descending
tie-break: the query of crud.get_trades orders by timestamp descending
only and has no secondary sort key. -/
theorem C2_counterexample :
    get_trades stTwo 100 0 none none none = [tOil, tGas] ∧
    tOil.timestamp = tGas.timestamp ∧ tOil.id < tGas.id ∧
    ¬ (get_trades stTwo 100 0 none none none).Pairwise tsDescIdDesc := by
  refine ⟨by decide, by decide, by decide, by decide⟩

/-- Claim C2 (amended): for every list query on a well-formed store, the
returned sequence is ordered by timestamp descending, and any two trades
with equal timestamps appear in insertion (id-ascending) order. -/
theorem C2_ordering_amended (st : StoreState) (limit offset : Nat)
    (co tid si : Option PyStr) (hwf : StoreWF st) :
    (get_trades st limit offset co tid si).Pairwise tsDescIdAsc := by
  have h1 : (applyFilters co tid si st.trades).Pairwise
      (fun a b => a.id < b.id) :=
    hwf.1.sublist (applyFilters_sublist co tid si st.trades)
  have h2 := pairwise_sortByTsDesc h1
  have hsub : List.Sublist
      (((sortByTsDesc (applyFilters co tid si st.trades)).drop
        offset).take limit)
      (sortByTsDesc (applyFilters co tid si st.trades)) :=
    (List.take_sublist _ _).trans (List.drop_sublist _ _)
  exact h2.sublist hsub

/-- Claim C2 (witness): the amended ordering theorem applied to the
concrete well-formed two-row store. -/
theorem C2_ordering_amended_witness : StoreWF stTwo ∧
    (get_trades stTwo 100 0 none none none).Pairwise tsDescIdAsc :=
  ⟨by decide, C2_ordering_amended stTwo 100 0 none none none (by decide)⟩

/-- Claim C3: when every other field of the candidate is valid, validation
succeeds if and only if the commodity has 1-50 characters and its
lowercase form is in the allowed set; and on success the produced value
has the commodity lowercased and price, quantity, side and trader_id
unchanged. -/
theorem C3_commodity_validation (c : TradeCandidate)
    (hp : 0 < c.price) (hq : 0 < c.quantity)
    (hs : c.side = "buy".toList ∨ c.side = "sell".toList)
    (htl : 1 ≤ c.trader_id.length) (hth : c.trader_id.length ≤ 100)
    (htp : trader_id_passes c.trader_id = true) :
    ((validate_and_normalize c).isSome = true ↔
      (1 ≤ c.commodity.length ∧ c.commodity.length ≤ 50 ∧
        pyLower c.commodity ∈ allowed_commodities)) ∧
    ∀ n, validate_and_normalize c = some n →
      n.commodity = pyLower c.commodity ∧ n.price = c.price ∧
      n.quantity = c.quantity ∧ n.side = c.side ∧
      n.trader_id = c.trader_id := by
  refine ⟨?_, fun n hn => validate_eq_some c n hn⟩
  rw [validate_isSome_iff]
  rcases hs with hs | hs <;>
    simp [field_constraints_pass, commodity_passes, htp, hp, hq, htl, hth,
      hs, and_assoc]

/-- Claim C3 (witness): the commodity theorem applied to the concrete
valid candidate cGood, whose commodity "Electricity" is accepted. -/
theorem C3_commodity_validation_witness :
    ((0:ℚ) < 1 ∧ (0:ℚ) < 2 ∧
      (cGood.side = "buy".toList ∨ cGood.side = "sell".toList) ∧
      1 ≤ cGood.trader_id.length ∧ cGood.trader_id.length ≤ 100 ∧
      trader_id_passes cGood.trader_id = true) ∧
    (validate_and_normalize cGood).isSome = true :=
  ⟨⟨by decide, by decide, by decide, by decide, by decide, by decide⟩,
   (C3_commodity_validation cGood (by decide) (by decide) (by decide)
     (by decide) (by decide) (by decide)).1.mpr (by decide)⟩

/-- Claim C4: a candidate with non-positive price or quantity fails
validation, and the create endpoint leaves the store unchanged and
creates no record. -/
theorem C4_nonpositive_rejected (st : StoreState) (now : Nat)
    (c : TradeCandidate) (h : c.price ≤ 0 ∨ c.quantity ≤ 0) :
    validate_and_normalize c = none ∧
    create_trade st now c = (st, none) := by
  have hf : field_constraints_pass c = false := by
    unfold field_constraints_pass
    rcases h with h | h <;> simp [not_lt.mpr h]
  have hv : validate_and_normalize c = none := by
    unfold validate_and_normalize
    simp [hf]
  exact ⟨hv, by unfold create_trade; rw [hv]⟩

/-- Claim C4 (witness): the rejection theorem applied to the concrete
candidate with price -5 against the empty store. -/
theorem C4_nonpositive_rejected_witness :
    (cNegPrice.price ≤ 0 ∨ cNegPrice.quantity ≤ 0) ∧
    validate_and_normalize cNegPrice = none ∧
    create_trade emptyStore 7 cNegPrice = (emptyStore, none) :=
  ⟨by decide, C4_nonpositive_rejected emptyStore 7 cNegPrice (by decide)⟩

/-- Claim C5: when every other field of the candidate is valid, validation
succeeds if and only if the side is exactly the string "buy" or the string
"sell" (case-sensitively). -/
theorem C5_side_validation (c : TradeCandidate)
    (hcl : 1 ≤ c.commodity.length) (hch : c.commodity.length ≤ 50)
    (hcp : commodity_passes c.commodity = true)
    (hp : 0 < c.price) (hq : 0 < c.quantity)
    (htl : 1 ≤ c.trader_id.length) (hth : c.trader_id.length ≤ 100)
    (htp : trader_id_passes c.trader_id = true) :
    (validate_and_normalize c).isSome = true ↔
      (c.side = "buy".toList ∨ c.side = "sell".toList) := by
  rw [validate_isSome_iff]
  simp [field_constraints_pass, hcp, htp, hp, hq, htl, hth, hcl, hch]

/-- Claim C5 (witness): the side theorem applied to a candidate whose side
is "Buy": validation rejects it, since "Buy" is neither "buy" nor
"sell". -/
theorem C5_side_validation_witness :
    (1 ≤ ("oil".toList : PyStr).length ∧
      ("oil".toList : PyStr).length ≤ 50 ∧
      commodity_passes "oil".toList = true ∧ (0:ℚ) < 1 ∧ (0:ℚ) < 1 ∧
      1 ≤ ("t1".toList : PyStr).length ∧
      ("t1".toList : PyStr).length ≤ 100 ∧
      trader_id_passes "t1".toList = true) ∧
    ((validate_and_normalize
        ⟨"oil".toList, 1, 1, "Buy".toList, "t1".toList⟩).isSome = true ↔
      (("Buy".toList : PyStr) = "buy".toList ∨
        ("Buy".toList : PyStr) = "sell".toList)) :=
  ⟨⟨by decide, by decide, by decide, by decide, by decide, by decide,
    by decide, by decide⟩,
   C5_side_validation ⟨"oil".toList, 1, 1, "Buy".toList, "t1".toList⟩
     (by decide) (by decide) (by decide) (by decide) (by decide)
     (by decide) (by decide) (by decide)⟩

/-- Claim C6: on a well-formed store, get_trade_by_id returns none for an
id that no stored trade has, and returns exactly the stored trade whose id
matches. -/
theorem C6_get_by_id (st : StoreState) (i : Nat) (hwf : StoreWF st) :
    ((∀ t ∈ st.trades, t.id ≠ i) → get_trade_by_id st i = none) ∧
    (∀ t ∈ st.trades, t.id = i → get_trade_by_id st i = some t) := by
  constructor
  · intro h
    exact List.find?_eq_none.mpr (fun x hx => by simp [h x hx])
  · intro t ht hid
    subst hid
    exact find_id_unique hwf.1 ht

/-- Claim C6 (witness): lookup on the concrete two-row store: an absent
id yields none and a present id yields its row. -/
theorem C6_get_by_id_witness : StoreWF stTwo ∧
    get_trade_by_id stTwo 99 = none ∧
    get_trade_by_id stTwo 1 = some tOil :=
  ⟨by decide,
   (C6_get_by_id stTwo 99 (by decide)).1 (by decide),
   (C6_get_by_id stTwo 1 (by decide)).2 tOil (by decide) (by decide)⟩

/-- Claim C7: on a well-formed store, every trade returned by the list
query is a stored trade satisfying all supplied filters; every stored
trade satisfying all supplied filters is in the unbounded (limit equal to
the store size, offset zero) result; and for a nonempty filter string the
commodity filter is case-insensitive equality with the canonical lowercase
stored value, the trader_id filter is exact case-sensitive equality, and
the side filter is case-insensitive equality. -/
theorem C7_filter_semantics (st : StoreState) (limit offset : Nat)
    (co tid si : Option PyStr) (hwf : StoreWF st) :
    (∀ t ∈ get_trades st limit offset co tid si,
       t ∈ st.trades ∧ matchesFilters co tid si t = true) ∧
    (∀ t ∈ st.trades, matchesFilters co tid si t = true →
       t ∈ get_trades st st.trades.length 0 co tid si) ∧
    (∀ s : PyStr, ∀ t ∈ st.trades, s ≠ [] →
       (matchesFilters (some s) none none t = true ↔
          eqCaseInsensitive s t.commodity = true) ∧
       (matchesFilters none (some s) none t = true ↔ t.trader_id = s) ∧
       (matchesFilters none none (some s) t = true ↔
          eqCaseInsensitive s t.side = true)) := by
  refine ⟨?_, ?_, ?_⟩
  · intro t ht
    have hsub : List.Sublist
        (get_trades st limit offset co tid si)
        (sortByTsDesc (applyFilters co tid si st.trades)) :=
      (List.take_sublist _ _).trans (List.drop_sublist _ _)
    have h1 : t ∈ sortByTsDesc (applyFilters co tid si st.trades) :=
      hsub.subset ht
    have h2 := mem_applyFilters.mp (mem_sortByTsDesc.mp h1)
    exact ⟨(applyFilters_sublist co tid si st.trades).subset
      (mem_sortByTsDesc.mp h1), h2.2⟩
  · intro t ht hm
    have h1 : t ∈ sortByTsDesc (applyFilters co tid si st.trades) :=
      mem_sortByTsDesc.mpr (mem_applyFilters.mpr ⟨ht, hm⟩)
    have hlen : (sortByTsDesc (applyFilters co tid si st.trades)).length ≤
        st.trades.length := by
      rw [(perm_sortByTsDesc _).length_eq]
      exact (applyFilters_sublist co tid si st.trades).length_le
    unfold get_trades
    rw [List.drop_zero, List.take_of_length_le hlen]
    exact h1
  · intro s t ht hs
    have hse : s.isEmpty = false := by
      cases s with
      | nil => exact absurd rfl hs
      | cons a l => rfl
    obtain ⟨_, hco, hside⟩ := hwf.2 t ht
    refine ⟨?_, ?_, ?_⟩
    · simp only [matchesFilters, hse, Bool.and_true, Bool.true_and,
        beq_iff_eq, eqCaseInsensitive, Bool.false_eq_true, if_false]
      rw [pyLower_allowed hco]
      exact ⟨fun h => h.symm, fun h => h.symm⟩
    · simp [matchesFilters, hse]
    · simp only [matchesFilters, hse, Bool.and_true, Bool.true_and,
        beq_iff_eq, eqCaseInsensitive, Bool.false_eq_true, if_false]
      rw [pyLower_side hside]
      exact ⟨fun h => h.symm, fun h => h.symm⟩

/-- Claim C7 (witness): on the concrete store, the stored oil trade
matches the case-insensitive commodity filter "OIL" and is returned by the
unbounded query. -/
theorem C7_filter_semantics_witness : StoreWF stTwo ∧
    tOil ∈ get_trades stTwo 2 0 (some "OIL".toList) none none :=
  ⟨by decide,
   (C7_filter_semantics stTwo 2 0 (some "OIL".toList) none none
     (by decide)).2.1 tOil (by decide) (by decide)⟩

/-- Claim C8: for every combination of filters, the total returned by the
list endpoint equals the number of stored trades matching the filters
under the same semantics as the list query, independent of the limit and
offset, and equals the length of the unbounded ordered result. -/
theorem C8_total_count (st : StoreState) (limit offset : Nat)
    (co tid si : Option PyStr) :
    (get_trades_endpoint st limit offset co tid si).2 =
      st.trades.countP (matchesFilters co tid si) ∧
    (get_trades_endpoint st limit offset co tid si).2 =
      (sortByTsDesc (applyFilters co tid si st.trades)).length := by
  constructor
  · simp [get_trades_endpoint, get_trades_count, applyFilters_eq_filter,
      List.countP_eq_length_filter]
  · simp [get_trades_endpoint, get_trades_count,
      (perm_sortByTsDesc (applyFilters co tid si st.trades)).length_eq]

/-- Claim C9: for a fixed store state, fixed filters and page size n with
1 <= n, concatenating the pages with offsets 0, n, 2n, ... up to any m
with the full matching sequence no longer than m*n reproduces the full
filtered, ordered sequence with no duplicates or gaps, and the page after
it is empty. -/
theorem C9_pagination (st : StoreState) (co tid si : Option PyStr)
    (n m : Nat) (_hn : 1 ≤ n)
    (hm : (sortByTsDesc (applyFilters co tid si st.trades)).length ≤
      m * n) :
    (List.range m).flatMap (fun k => get_trades st n (k * n) co tid si) =
      sortByTsDesc (applyFilters co tid si st.trades) ∧
    get_trades st n (m * n) co tid si = [] := by
  constructor
  · unfold get_trades
    rw [flatMap_range_take_drop]
    exact List.take_of_length_le hm
  · unfold get_trades
    rw [List.drop_eq_nil_of_le hm]
    exact List.take_nil

/-- Claim C9 (witness): the pagination theorem applied to the concrete
two-row store with page size 1 and two pages. -/
theorem C9_pagination_witness : 1 ≤ 1 ∧
    (sortByTsDesc (applyFilters none none none stTwo.trades)).length ≤
      2 * 1 ∧
    ((List.range 2).flatMap (fun k => get_trades stTwo 1 (k * 1)
        none none none) =
      sortByTsDesc (applyFilters none none none stTwo.trades) ∧
     get_trades stTwo 1 (2 * 1) none none none = []) :=
  ⟨by decide, by decide,
   C9_pagination stTwo none none none 1 2 (by decide) (by decide)⟩

/-- Claim C10: supplying the empty string as the commodity, trader_id or
side filter to the list query or to the matching count behaves exactly as
supplying no filter, and with no filters the count is the whole store. -/
theorem C10_empty_filter (st : StoreState) (limit offset : Nat)
    (co tid si : Option PyStr) :
    get_trades st limit offset (some "".toList) tid si =
      get_trades st limit offset none tid si ∧
    get_trades st limit offset co (some "".toList) si =
      get_trades st limit offset co none si ∧
    get_trades st limit offset co tid (some "".toList) =
      get_trades st limit offset co tid none ∧
    get_trades_count st (some "".toList) tid si =
      get_trades_count st none tid si ∧
    get_trades_count st co (some "".toList) si =
      get_trades_count st co none si ∧
    get_trades_count st co tid (some "".toList) =
      get_trades_count st co tid none ∧
    get_trades_count st none none none = st.trades.length :=
  ⟨rfl, rfl, rfl, rfl, rfl, rfl, rfl⟩

end TradeService
